import Mathlib

/-
  Verification development for the YoutubeSEO_Bot backend (src/app.py).

  The Python source is shallowly embedded below.  Network and provider
  effects (feed fetching, the trends provider, the forum API, the image
  search API) are modelled as explicit oracle functions passed in an
  environment: an oracle returns either a value or a raised exception,
  rendered as an Except with a String message, matching the fact that the
  Python code only ever observes an exception through str(e).  Python
  integers are Int, Python string truthiness is made explicit, and the
  list slicing and pandas head calls are modelled by py_take.
-/

namespace YoutubeSEOBot

/-- A normalized trend item, the dict shape built by the adapters in
src/app.py: title, link and published are always present, possibly empty. -/
structure TrendItem where
  title : String
  link : String
  published : String
deriving Repr, DecidableEq

/-- The per-adapter result dict: a source name, an ordered item list, and an
optional warning field (only ever set by the reddit adapter). -/
structure SourceResult where
  source : String
  items : List TrendItem
  warning : Option String := none
deriving Repr, DecidableEq

/-- The per-adapter error record appended by safe_call in src/app.py. -/
structure SourceError where
  source : String
  error : String
deriving Repr, DecidableEq

/-- The JSON body returned by the /trending endpoint on the non-error path. -/
structure TrendingResponse where
  success : Bool
  requested_source : String
  limit : Int
  data : List SourceResult
  errors : List SourceError
deriving Repr, DecidableEq

/-- A raised fastapi HTTPException: status code and detail string. -/
structure HTTPError where
  status_code : Nat
  detail : String
deriving Repr, DecidableEq

/-- The TrendingRequest pydantic model with its defaults. -/
structure TrendingRequest where
  source : String := "all"
  limit : Int := 5
  country : String := "IN"
  language : String := "en"
  subreddit : String := "all"

/-- The ImageRequest pydantic model with its defaults. -/
structure ImageRequest where
  prompt : String
  orientation : String := "landscape"

/-- One feedparser entry: getattr with default means each field may be
absent, rendered as an Option. -/
structure RssEntry where
  title : Option String
  link : Option String
  published : Option String
deriving Repr, DecidableEq

/-- One praw submission as consumed by get_reddit: a title and a url. -/
structure RedditPost where
  title : String
  url : String
deriving Repr, DecidableEq

/-- The pexels search response as consumed by generate_image: an HTTP
status code, the raw body text, and the parsed photos array where each
photo carries its large source url and photographer name. -/
structure Photo where
  src_large : String
  photographer : String
deriving Repr, DecidableEq

structure HttpResponse where
  status_code : Int
  text : String
  photos : List Photo
deriving Repr, DecidableEq

/-- The response body of /generate-image on success. -/
structure ImageResponse where
  success : Bool
  image_url : String
  photographer : String
  source : String
deriving Repr, DecidableEq

/-- Environment of external effects and process-wide configuration for the
trending endpoint.  fetchFeed models feedparser.parse keyed by feed url,
trendingSearches models pytrends trending_searches keyed by the pn region,
redditHot models the praw hot listing keyed by subreddit name and limit.
The credential fields model os.getenv results: absent or a string. -/
structure Env where
  fetchFeed : String → Except String (List RssEntry)
  trendingSearches : String → Except String (List String)
  redditClientId : Option String
  redditClientSecret : Option String
  redditHot : String → Int → Except String (List RedditPost)

/-- Python truthiness of an optional string: None and the empty string are
falsy, every other string is truthy. -/
def truthy : Option String → Bool
  | none => false
  | some s => s != ""

/-- Python list slicing l[:n] (also pandas head n): for nonnegative n the
first n elements, for negative n all but the last -n elements. -/
def py_take (n : Int) (l : List α) : List α :=
  if 0 ≤ n then l.take n.toNat else l.take (l.length - n.natAbs)

/-- Python str.upper restricted to ASCII, the range the source relies on. -/
def py_upper (s : String) : String := String.mk (s.data.map Char.toUpper)

/-- Python str.lower restricted to ASCII, the range the source relies on. -/
def py_lower (s : String) : String := String.mk (s.data.map Char.toLower)

/-- clamp_limit from src/app.py line 105. -/
def clamp_limit (n : Int) : Int := max 1 (min n 10)

/-- rss_top from src/app.py line 108, with feedparser.parse replaced by the
fetchFeed oracle: take the first limit entries and normalize each, using
the empty string for any missing field. -/
def rss_top (fetchFeed : String → Except String (List RssEntry))
    (rss_url : String) (limit : Int) : Except String (List TrendItem) :=
  (fetchFeed rss_url).map fun entries =>
    (py_take limit entries).map fun entry =>
      { title := entry.title.getD ""
        link := entry.link.getD ""
        published := entry.published.getD "" }

/-- get_google_news from src/app.py line 119. -/
def get_google_news (fetchFeed : String → Except String (List RssEntry))
    (limit : Int) (country language : String) : Except String SourceResult :=
  let rss_url := "https://news.google.com/rss?hl=" ++ language ++ "-" ++ country
      ++ "&gl=" ++ country ++ "&ceid=" ++ country ++ ":" ++ language
  (rss_top fetchFeed rss_url limit).map fun items =>
    { source := "google_news", items := items }

/-- get_reuters from src/app.py line 123. -/
def get_reuters (fetchFeed : String → Except String (List RssEntry))
    (limit : Int) : Except String SourceResult :=
  let rss_url := "https://www.reutersagency.com/feed/?best-topics=business-finance&post_type=best"
  (rss_top fetchFeed rss_url limit).map fun items =>
    { source := "reuters", items := items }

/-- get_flipboard from src/app.py line 127. -/
def get_flipboard (fetchFeed : String → Except String (List RssEntry))
    (limit : Int) : Except String SourceResult :=
  let rss_url := "https://flipboard.com/@news.rss"
  (rss_top fetchFeed rss_url limit).map fun items =>
    { source := "flipboard", items := items }

/-- The pn_map dict literal inside get_google_trends, src/app.py line 132. -/
def pn_map : List (String × String) :=
  [("IN", "india"), ("US", "united_states"), ("GB", "united_kingdom"),
   ("CA", "canada"), ("AU", "australia")]

/-- The region selection pn_map.get(country.upper(), "india") of
src/app.py line 139. -/
def pn_of (country : String) : String :=
  (pn_map.lookup (py_upper country)).getD "india"

/-- get_google_trends from src/app.py line 131, with the pytrends call
replaced by the trendingSearches oracle keyed by the pn region. -/
def get_google_trends (trendingSearches : String → Except String (List String))
    (limit : Int) (country : String) : Except String SourceResult :=
  let pn := pn_of country
  (trendingSearches pn).map fun terms =>
    { source := "google_trends"
      items := (py_take limit terms).map fun t =>
        { title := t, link := "", published := "" } }

/-- get_reddit from src/app.py line 150, with the praw hot listing replaced
by the hot oracle.  The credential check mirrors the Python truthiness test
on REDDIT_CLIENT_ID and REDDIT_CLIENT_SECRET. -/
def get_reddit (clientId clientSecret : Option String)
    (hot : String → Int → Except String (List RedditPost))
    (limit : Int) (subreddit_name : String) : Except String SourceResult :=
  if !(truthy clientId && truthy clientSecret) then
    Except.ok { source := "reddit", items := [], warning := some "Reddit keys missing" }
  else
    (hot subreddit_name limit).map fun posts =>
      { source := "reddit"
        items := posts.map fun post =>
          { title := post.title, link := post.url, published := "" } }

/-- The allowed source set of src/app.py line 179. -/
def allowed : List String :=
  ["all", "google_trends", "google_news", "reddit", "reuters", "flipboard"]

/-- safe_call from src/app.py line 187, with the closure captured sinks made
explicit: the accumulated results and errors lists are threaded through. -/
def safe_call (acc : List SourceResult × List SourceError)
    (fn : Except String SourceResult) (name : String) :
    List SourceResult × List SourceError :=
  match fn with
  | Except.ok r => (acc.1 ++ [r], acc.2)
  | Except.error e => (acc.1, acc.2 ++ [{ source := name, error := e }])

/-- The /trending endpoint, src/app.py line 173: clamp the limit, lower the
source, reject unknown sources with a 400, then run the five adapters in
fixed order through safe_call, including each one exactly when the source
is all or that adapter name. -/
def trending (env : Env) (payload : TrendingRequest) :
    Except HTTPError TrendingResponse :=
  let limit := clamp_limit payload.limit
  let source := py_lower payload.source
  if source ∈ allowed then
    let acc0 : List SourceResult × List SourceError := ([], [])
    let acc1 := if source = "all" ∨ source = "google_trends" then
      safe_call acc0 (get_google_trends env.trendingSearches limit payload.country)
        "google_trends" else acc0
    let acc2 := if source = "all" ∨ source = "google_news" then
      safe_call acc1 (get_google_news env.fetchFeed limit payload.country payload.language)
        "google_news" else acc1
    let acc3 := if source = "all" ∨ source = "reddit" then
      safe_call acc2 (get_reddit env.redditClientId env.redditClientSecret
        env.redditHot limit payload.subreddit) "reddit" else acc2
    let acc4 := if source = "all" ∨ source = "reuters" then
      safe_call acc3 (get_reuters env.fetchFeed limit) "reuters" else acc3
    let acc5 := if source = "all" ∨ source = "flipboard" then
      safe_call acc4 (get_flipboard env.fetchFeed limit) "flipboard" else acc4
    Except.ok
      { success := true
        requested_source := source
        limit := limit
        data := acc5.1
        errors := acc5.2 }
  else
    Except.error { status_code := 400, detail := "Invalid source" }

/-- The /generate-image endpoint, src/app.py line 55, with the requests.get
call to the pexels search API replaced by the search oracle keyed by query
and orientation; a raised network exception is the error branch of the
oracle result. -/
def generate_image (pexelsKey : Option String)
    (search : String → String → Except String HttpResponse)
    (payload : ImageRequest) : Except HTTPError ImageResponse :=
  if !truthy pexelsKey then
    Except.error { status_code := 500, detail := "PEXELS_API_KEY missing in Render ENV" }
  else if payload.prompt = "" then
    Except.error { status_code := 400, detail := "Prompt is required" }
  else
    match search payload.prompt payload.orientation with
    | Except.error e => Except.error { status_code := 500, detail := e }
    | Except.ok response =>
      if response.status_code ≠ 200 then
        Except.error { status_code := 500, detail := response.text }
      else
        match response.photos with
        | [] => Except.error { status_code := 404, detail := "No images found" }
        | photo :: _ =>
          Except.ok
            { success := true
              image_url := photo.src_large
              photographer := photo.photographer
              source := "pexels" }

/-- The fixed adapter invocation order of the trending fan-out. -/
def adapterOrder : List String :=
  ["google_trends", "google_news", "reddit", "reuters", "flipboard"]

/-- The five adapter calls of one trending request, paired with the names
safe_call is given, in invocation order. -/
def fanoutCalls (env : Env) (p : TrendingRequest) :
    List (String × Except String SourceResult) :=
  [("google_trends",
      get_google_trends env.trendingSearches (clamp_limit p.limit) p.country),
   ("google_news",
      get_google_news env.fetchFeed (clamp_limit p.limit) p.country p.language),
   ("reddit",
      get_reddit env.redditClientId env.redditClientSecret env.redditHot
        (clamp_limit p.limit) p.subreddit),
   ("reuters", get_reuters env.fetchFeed (clamp_limit p.limit)),
   ("flipboard", get_flipboard env.fetchFeed (clamp_limit p.limit))]

/-- Whether an adapter is included for a given lowered source value. -/
def includedB (source name : String) : Bool := source == "all" || source == name

/-- The calls actually made for a request, in invocation order. -/
def includedCalls (env : Env) (p : TrendingRequest) :
    List (String × Except String SourceResult) :=
  (fanoutCalls env p).filter fun c => includedB (py_lower p.source) c.1

/-- The adapter names selected by a lowered source value, in order. -/
def selectedNames (source : String) : List String :=
  adapterOrder.filter fun n => includedB source n

/-- The contribution of one call to the data list. -/
def okPart : String × Except String SourceResult → Option SourceResult
  | (_, Except.ok r) => some r
  | (_, Except.error _) => none

/-- The contribution of one call to the errors list. -/
def errPart : String × Except String SourceResult → Option SourceError
  | (name, Except.error e) => some { source := name, error := e }
  | (_, Except.ok _) => none

theorem safe_call_eq (acc : List SourceResult × List SourceError)
    (fn : Except String SourceResult) (name : String) :
    safe_call acc fn name =
      (acc.1 ++ (okPart (name, fn)).toList, acc.2 ++ (errPart (name, fn)).toList) := by
  cases fn <;> simp [safe_call, okPart, errPart]

theorem filterMap_cons_toList (f : α → Option β) (a : α) (l : List α) :
    List.filterMap f (a :: l) = (f a).toList ++ List.filterMap f l := by
  cases h : f a <;> simp [h]

/-- Characterization of the trending endpoint on the valid-source path:
the data list collects, in invocation order, the ok outcomes of the
included calls, and the errors list the raised outcomes. -/
theorem trending_eq (env : Env) (p : TrendingRequest)
    (h : py_lower p.source ∈ allowed) :
    trending env p = Except.ok
      { success := true
        requested_source := py_lower p.source
        limit := clamp_limit p.limit
        data := (includedCalls env p).filterMap okPart
        errors := (includedCalls env p).filterMap errPart } := by
  simp only [allowed, List.mem_cons, List.not_mem_nil, or_false] at h
  rcases h with hs | hs | hs | hs | hs | hs <;>
    simp [trending, hs, allowed, includedCalls, fanoutCalls, includedB,
      safe_call_eq, filterMap_cons_toList, List.append_assoc]

/-- The invalid-source path: anything whose lowered form is not in the
allowed set is rejected with a 400 before any adapter call is consulted. -/
theorem trending_invalid (env : Env) (p : TrendingRequest)
    (h : py_lower p.source ∉ allowed) :
    trending env p = Except.error { status_code := 400, detail := "Invalid source" } := by
  simp [trending, h]

theorem except_map_ok {α β ε : Type} {f : α → β} {x : Except ε α} {v : β}
    (h : x.map f = Except.ok v) : ∃ a, x = Except.ok a ∧ v = f a := by
  cases x with
  | error e => simp [Except.map] at h
  | ok a => refine ⟨a, rfl, ?_⟩; simpa [Except.map] using h.symm

theorem okPart_eq_some {c : String × Except String SourceResult} {v : SourceResult}
    (h : okPart c = some v) : c.2 = Except.ok v := by
  obtain ⟨n, r⟩ := c
  cases r with
  | ok w => simpa [okPart] using congrArg (Except.ok (ε := String)) (by simpa [okPart] using h)
  | error e => simp [okPart] at h

theorem errPart_eq_some {c : String × Except String SourceResult} {er : SourceError}
    (h : errPart c = some er) : c.2 = Except.error er.error ∧ er.source = c.1 := by
  obtain ⟨n, r⟩ := c
  cases r with
  | ok w => simp [errPart] at h
  | error e =>
    simp only [errPart] at h
    obtain rfl := (Option.some_inj.mp h).symm
    exact ⟨rfl, rfl⟩

theorem source_google_trends {ts : String → Except String (List String)}
    {limit : Int} {country : String} {v : SourceResult}
    (h : get_google_trends ts limit country = Except.ok v) :
    v.source = "google_trends" := by
  simp only [get_google_trends] at h
  obtain ⟨a, _, rfl⟩ := except_map_ok h
  rfl

theorem source_google_news {ff : String → Except String (List RssEntry)}
    {limit : Int} {country language : String} {v : SourceResult}
    (h : get_google_news ff limit country language = Except.ok v) :
    v.source = "google_news" := by
  simp only [get_google_news, rss_top] at h
  obtain ⟨a, _, rfl⟩ := except_map_ok h
  rfl

theorem source_get_reuters {ff : String → Except String (List RssEntry)}
    {limit : Int} {v : SourceResult}
    (h : get_reuters ff limit = Except.ok v) : v.source = "reuters" := by
  simp only [get_reuters, rss_top] at h
  obtain ⟨a, _, rfl⟩ := except_map_ok h
  rfl

theorem source_get_flipboard {ff : String → Except String (List RssEntry)}
    {limit : Int} {v : SourceResult}
    (h : get_flipboard ff limit = Except.ok v) : v.source = "flipboard" := by
  simp only [get_flipboard, rss_top] at h
  obtain ⟨a, _, rfl⟩ := except_map_ok h
  rfl

theorem source_get_reddit {cid cs : Option String}
    {hot : String → Int → Except String (List RedditPost)}
    {limit : Int} {sub : String} {v : SourceResult}
    (h : get_reddit cid cs hot limit sub = Except.ok v) : v.source = "reddit" := by
  unfold get_reddit at h
  split at h
  · obtain rfl := Except.ok.inj h
    rfl
  · obtain ⟨a, _, rfl⟩ := except_map_ok h
    rfl

/-- Every ok outcome of a fan-out call carries the source name safe_call
was given for that call: the adapters hard-code their own names. -/
theorem fanout_source (env : Env) (p : TrendingRequest) :
    ∀ c ∈ fanoutCalls env p, ∀ v, okPart c = some v → v.source = c.1 := by
  intro c hc v hv
  have h2 := okPart_eq_some hv
  simp only [fanoutCalls, List.mem_cons, List.not_mem_nil, or_false] at hc
  rcases hc with hc | hc | hc | hc | hc
  · subst hc; exact source_google_trends h2
  · subst hc; exact source_google_news h2
  · subst hc; exact source_get_reddit h2
  · subst hc; exact source_get_reuters h2
  · subst hc; exact source_get_flipboard h2

theorem included_source (env : Env) (p : TrendingRequest) :
    ∀ c ∈ includedCalls env p, ∀ v, okPart c = some v → v.source = c.1 :=
  fun c hc => fanout_source env p c (List.mem_of_mem_filter hc)

theorem map_fst_filter (q : String → Bool)
    (l : List (String × Except String SourceResult)) :
    (l.filter fun c => q c.1).map Prod.fst = (l.map Prod.fst).filter q := by
  induction l with
  | nil => rfl
  | cons a t ih => by_cases h : q a.1 <;> simp [List.filter_cons, h, ih]

theorem includedCalls_names (env : Env) (p : TrendingRequest) :
    (includedCalls env p).map Prod.fst = selectedNames (py_lower p.source) := by
  have h := map_fst_filter (fun n => includedB (py_lower p.source) n) (fanoutCalls env p)
  simpa [includedCalls, selectedNames, fanoutCalls, adapterOrder] using h

theorem selectedNames_nodup (s : String) : (selectedNames s).Nodup :=
  List.Nodup.filter _ (by decide)

theorem selectedNames_sublist (s : String) :
    (selectedNames s).Sublist adapterOrder :=
  List.filter_sublist adapterOrder

/-- The names in the data and errors lists, taken together, are a
permutation of the names of the calls. -/
theorem partition_perm (l : List (String × Except String SourceResult))
    (hsrc : ∀ c ∈ l, ∀ v, okPart c = some v → v.source = c.1) :
    ((l.filterMap okPart).map (fun v => v.source) ++
     (l.filterMap errPart).map (fun er => er.source)).Perm (l.map Prod.fst) := by
  induction l with
  | nil => simp
  | cons a t ih =>
    have hsrc_t : ∀ c ∈ t, ∀ v, okPart c = some v → v.source = c.1 :=
      fun c hc => hsrc c (List.mem_cons_of_mem _ hc)
    obtain ⟨n, r⟩ := a
    cases r with
    | ok v =>
      have hv : v.source = n := hsrc (n, Except.ok v) (List.mem_cons_self _ _) v rfl
      simpa [filterMap_cons_toList, okPart, errPart, hv] using (ih hsrc_t).cons n
    | error e =>
      simp only [filterMap_cons_toList, okPart, errPart, Option.toList_some,
        Option.toList_none, List.nil_append, List.map_cons, List.map_nil, List.map_append]
      -- the error name sits in the middle of the combined list
      exact (List.perm_middle).trans ((ih hsrc_t).cons n)

theorem okNames_sublist (l : List (String × Except String SourceResult))
    (hsrc : ∀ c ∈ l, ∀ v, okPart c = some v → v.source = c.1) :
    ((l.filterMap okPart).map (fun v => v.source)).Sublist (l.map Prod.fst) := by
  induction l with
  | nil => simp
  | cons a t ih =>
    have hsrc_t : ∀ c ∈ t, ∀ v, okPart c = some v → v.source = c.1 :=
      fun c hc => hsrc c (List.mem_cons_of_mem _ hc)
    obtain ⟨n, r⟩ := a
    cases r with
    | ok v =>
      have hv : v.source = n := hsrc (n, Except.ok v) (List.mem_cons_self _ _) v rfl
      simpa [filterMap_cons_toList, okPart, hv] using (ih hsrc_t).cons₂ n
    | error e =>
      simpa [filterMap_cons_toList, okPart] using (ih hsrc_t).cons n

theorem errNames_sublist (l : List (String × Except String SourceResult)) :
    ((l.filterMap errPart).map (fun er => er.source)).Sublist (l.map Prod.fst) := by
  induction l with
  | nil => simp
  | cons a t ih =>
    obtain ⟨n, r⟩ := a
    cases r with
    | ok v => simpa [filterMap_cons_toList, errPart] using ih.cons n
    | error e => simpa [filterMap_cons_toList, errPart] using ih.cons₂ n

theorem filter_source_nil (l : List (String × Except String SourceResult)) (n : String)
    (hsrc : ∀ c ∈ l, ∀ v, okPart c = some v → v.source = c.1)
    (hn : n ∉ l.map Prod.fst) :
    (l.filterMap okPart).filter (fun v => v.source == n) = [] ∧
    (l.filterMap errPart).filter (fun er => er.source == n) = [] := by
  constructor
  · rw [List.filter_eq_nil_iff]
    intro v hv
    obtain ⟨c, hc, hfc⟩ := List.mem_filterMap.mp hv
    have : v.source = c.1 := hsrc c hc v hfc
    have hne : c.1 ≠ n := fun he => hn (he ▸ List.mem_map_of_mem Prod.fst hc)
    simp [this, hne]
  · rw [List.filter_eq_nil_iff]
    intro er hv
    obtain ⟨c, hc, hfc⟩ := List.mem_filterMap.mp hv
    have : er.source = c.1 := (errPart_eq_some hfc).2
    have hne : c.1 ≠ n := fun he => hn (he ▸ List.mem_map_of_mem Prod.fst hc)
    simp [this, hne]

/-- The entries of the data and errors lists carrying a given included
call name are exactly the contribution of that call itself: its result
when it succeeded, its error record when it raised. -/
theorem contrib_eq (l : List (String × Except String SourceResult))
    (hnodup : (l.map Prod.fst).Nodup)
    (hsrc : ∀ c ∈ l, ∀ v, okPart c = some v → v.source = c.1) :
    ∀ c ∈ l,
      (l.filterMap okPart).filter (fun v => v.source == c.1) = (okPart c).toList ∧
      (l.filterMap errPart).filter (fun er => er.source == c.1) = (errPart c).toList := by
  induction l with
  | nil => intro c hc; cases hc
  | cons a t ih =>
    have hsrc_t : ∀ c ∈ t, ∀ v, okPart c = some v → v.source = c.1 :=
      fun c hc => hsrc c (List.mem_cons_of_mem _ hc)
    rw [List.map_cons, List.nodup_cons] at hnodup
    have hhead : a.1 ∉ t.map Prod.fst := hnodup.1
    have hnodup_t : (t.map Prod.fst).Nodup := hnodup.2
    intro c hc
    rcases List.mem_cons.mp hc with hc | hc
    · subst hc
      have htail := filter_source_nil t c.1 hsrc_t hhead
      obtain ⟨n, r⟩ := c
      cases r with
      | ok v =>
        have hv : v.source = n := hsrc (n, Except.ok v) (List.mem_cons_self _ _) v rfl
        constructor
        · simp [filterMap_cons_toList, okPart, List.filter_append, hv, htail.1]
        · simp [filterMap_cons_toList, errPart, List.filter_append, htail.2]
      | error e =>
        constructor
        · simp [filterMap_cons_toList, okPart, List.filter_append, htail.1]
        · simp [filterMap_cons_toList, errPart, List.filter_append, htail.2]
    · have hne : a.1 ≠ c.1 := by
        intro he
        exact hhead (he ▸ List.mem_map_of_mem Prod.fst hc)
      have hrec := ih hnodup_t hsrc_t c hc
      obtain ⟨n, r⟩ := a
      cases r with
      | ok v =>
        have hv : v.source = n := hsrc (n, Except.ok v) (List.mem_cons_self _ _) v rfl
        constructor
        · simpa [filterMap_cons_toList, okPart, List.filter_append, hv, hne] using hrec.1
        · simpa [filterMap_cons_toList, errPart, List.filter_append] using hrec.2
      | error e =>
        constructor
        · simpa [filterMap_cons_toList, okPart, List.filter_append] using hrec.1
        · simpa [filterMap_cons_toList, errPart, List.filter_append, hne] using hrec.2

theorem char_toNat_ofNat (n : Nat) (h : n.isValidChar) :
    (Char.ofNat n).toNat = n := by
  simp [Char.ofNat, h, Char.ofNatAux, Char.toNat, UInt32.toNat]

theorem char_toUpper_idem (c : Char) : c.toUpper.toUpper = c.toUpper := by
  simp only [Char.toUpper]
  by_cases h : c.toNat ≥ 97 ∧ c.toNat ≤ 122
  · rw [if_pos h]
    have hv : Nat.isValidChar (c.toNat - 32) := Or.inl (by omega)
    rw [char_toNat_ofNat _ hv, if_neg (by omega)]
  · simp only [if_neg h]

theorem py_upper_idem (s : String) : py_upper (py_upper s) = py_upper s := by
  simp only [py_upper, List.map_map]
  have hf : Char.toUpper ∘ Char.toUpper = Char.toUpper := funext char_toUpper_idem
  rw [hf]

/-- Environment used for witnesses: feeds and the trends provider answer,
forum credentials are absent. -/
def env0 : Env :=
  { fetchFeed := fun _ => Except.ok []
    trendingSearches := fun _ => Except.ok ["alpha", "beta"]
    redditClientId := none
    redditClientSecret := none
    redditHot := fun _ _ => Except.ok [] }

/-- Environment used for witnesses: every upstream raises and the forum
credentials are present, so all five adapters fail. -/
def envFail : Env :=
  { fetchFeed := fun _ => Except.error "network down"
    trendingSearches := fun _ => Except.error "provider down"
    redditClientId := some "id"
    redditClientSecret := some "secret"
    redditHot := fun _ _ => Except.error "forum down" }

/-- Environment used for witnesses: the trends provider answers, every
feed fetch raises, forum credentials are absent. -/
def envMix : Env :=
  { fetchFeed := fun _ => Except.error "boom"
    trendingSearches := fun _ => Except.ok ["alpha"]
    redditClientId := none
    redditClientSecret := none
    redditHot := fun _ _ => Except.ok [] }

/-- C3: for every valid request the limit echoed by trending equals
max 1 (min n 10), with 0, 5, 999 and -3 clamped to 1, 5, 10 and 1, and
out of range input clamped rather than rejected. -/
theorem C3_limit_clamped (env : Env) (p : TrendingRequest)
    (h : py_lower p.source ∈ allowed) :
    (∃ resp, trending env p = Except.ok resp ∧
      resp.limit = max 1 (min p.limit 10)) ∧
    clamp_limit 0 = 1 ∧ clamp_limit 5 = 5 ∧
    clamp_limit 999 = 10 ∧ clamp_limit (-3) = 1 :=
  ⟨⟨_, trending_eq env p h, rfl⟩, by decide, by decide, by decide, by decide⟩

theorem C3_limit_clamped_witness :
    py_lower (TrendingRequest.source { source := "all", limit := 999 }) ∈ allowed ∧
    ((∃ resp, trending env0 { source := "all", limit := 999 } = Except.ok resp ∧
      resp.limit = max 1 (min 999 10)) ∧
     clamp_limit 0 = 1 ∧ clamp_limit 5 = 5 ∧
     clamp_limit 999 = 10 ∧ clamp_limit (-3) = 1) :=
  ⟨by decide, C3_limit_clamped env0 { source := "all", limit := 999 } (by decide)⟩

/-- C4: a source whose lowered form is outside the allowed set is rejected
with a 400 before any adapter runs, the result not depending on the
environment of adapters, while a source whose lowered form is in the set
is never rejected. -/
theorem C4_source_validation (env env2 : Env) (p : TrendingRequest) :
    (py_lower p.source ∉ allowed →
      trending env p = Except.error { status_code := 400, detail := "Invalid source" } ∧
      trending env p = trending env2 p) ∧
    (py_lower p.source ∈ allowed → ∃ resp, trending env p = Except.ok resp) := by
  constructor
  · intro h
    exact ⟨trending_invalid env p h,
      (trending_invalid env p h).trans (trending_invalid env2 p h).symm⟩
  · intro h
    exact ⟨_, trending_eq env p h⟩

theorem C4_source_validation_witness :
    py_lower (TrendingRequest.source { source := "youtube" }) ∉ allowed ∧
    trending env0 { source := "youtube" } =
      Except.error { status_code := 400, detail := "Invalid source" } ∧
    py_lower (TrendingRequest.source { source := "ALL" }) ∈ allowed ∧
    (∃ resp, trending env0 { source := "ALL" } = Except.ok resp) :=
  ⟨by decide,
   ((C4_source_validation env0 envFail { source := "youtube" }).1 (by decide)).1,
   by decide,
   (C4_source_validation env0 envFail { source := "ALL" }).2 (by decide)⟩

/-- C6: every request that passes source validation gets success true,
whatever the adapters did, and the only error result trending ever
produces is the invalid source 400. -/
theorem C6_success_flag (env : Env) (p : TrendingRequest) :
    (py_lower p.source ∈ allowed →
      ∃ resp, trending env p = Except.ok resp ∧ resp.success = true) ∧
    (∀ err, trending env p = Except.error err →
      py_lower p.source ∉ allowed ∧
      err = { status_code := 400, detail := "Invalid source" }) := by
  constructor
  · intro h
    exact ⟨_, trending_eq env p h, rfl⟩
  · intro err herr
    by_cases h : py_lower p.source ∈ allowed
    · rw [trending_eq env p h] at herr
      cases herr
    · refine ⟨h, ?_⟩
      rw [trending_invalid env p h] at herr
      exact (Except.error.inj herr).symm

theorem C6_success_flag_witness :
    py_lower (TrendingRequest.source { source := "all" }) ∈ allowed ∧
    ∃ resp, trending envFail { source := "all" } = Except.ok resp ∧
      resp.success = true :=
  ⟨by decide, (C6_success_flag envFail { source := "all" }).1 (by decide)⟩

/-- C7: when either forum credential is missing the reddit adapter returns
the empty warning result without raising, and a trending request for
source reddit yields exactly that one result in data and no errors. -/
theorem C7_reddit_soft_degrade (env : Env) (p : TrendingRequest)
    (hcred : truthy env.redditClientId = false ∨ truthy env.redditClientSecret = false)
    (hsrc : py_lower p.source = "reddit") :
    get_reddit env.redditClientId env.redditClientSecret env.redditHot
        (clamp_limit p.limit) p.subreddit =
      Except.ok { source := "reddit", items := [], warning := some "Reddit keys missing" } ∧
    trending env p = Except.ok
      { success := true
        requested_source := "reddit"
        limit := clamp_limit p.limit
        data := [{ source := "reddit", items := [], warning := some "Reddit keys missing" }]
        errors := [] } := by
  have hc : (truthy env.redditClientId && truthy env.redditClientSecret) = false := by
    rcases hcred with h | h <;> simp [h]
  have hr : get_reddit env.redditClientId env.redditClientSecret env.redditHot
      (clamp_limit p.limit) p.subreddit =
      Except.ok { source := "reddit", items := [], warning := some "Reddit keys missing" } := by
    simp [get_reddit, hc]
  refine ⟨hr, ?_⟩
  have hmem : py_lower p.source ∈ allowed := by rw [hsrc]; decide
  rw [trending_eq env p hmem]
  simp [includedCalls, fanoutCalls, includedB, hsrc, hr, okPart, errPart,
    filterMap_cons_toList]

theorem C7_reddit_soft_degrade_witness :
    (truthy env0.redditClientId = false ∨ truthy env0.redditClientSecret = false) ∧
    py_lower (TrendingRequest.source { source := "reddit" }) = "reddit" ∧
    (get_reddit env0.redditClientId env0.redditClientSecret env0.redditHot
        (clamp_limit (TrendingRequest.limit { source := "reddit" }))
        (TrendingRequest.subreddit { source := "reddit" }) =
      Except.ok { source := "reddit", items := [], warning := some "Reddit keys missing" } ∧
     trending env0 { source := "reddit" } = Except.ok
      { success := true
        requested_source := "reddit"
        limit := clamp_limit (TrendingRequest.limit { source := "reddit" })
        data := [{ source := "reddit", items := [], warning := some "Reddit keys missing" }]
        errors := [] }) :=
  ⟨Or.inl rfl, by decide,
   C7_reddit_soft_degrade env0 { source := "reddit" } (Or.inl rfl) (by decide)⟩

/-- C8: the structured trends adapter maps the country through the fixed
five entry table, falls back to india when the code is not in the table,
and wraps each of the first limit terms with empty link and published
fields. -/
theorem C8_trends_region (ts : String → Except String (List String))
    (limit : Int) (country : String) (terms : List String)
    (hl : 0 ≤ limit) (hts : ts (pn_of country) = Except.ok terms) :
    pn_of "IN" = "india" ∧ pn_of "US" = "united_states" ∧
    pn_of "GB" = "united_kingdom" ∧ pn_of "CA" = "canada" ∧
    pn_of "AU" = "australia" ∧
    (∀ c, pn_map.lookup (py_upper c) = none → pn_of c = "india") ∧
    get_google_trends ts limit country = Except.ok
      { source := "google_trends"
        items := (terms.take limit.toNat).map fun t =>
          { title := t, link := "", published := "" }
        warning := none } := by
  refine ⟨by decide, by decide, by decide, by decide, by decide, ?_, ?_⟩
  · intro c hc
    simp [pn_of, hc]
  · simp [get_google_trends, hts, Except.map, py_take, hl]

/-- The trends oracle used by the C8 witness. -/
def tsWitness : String → Except String (List String) :=
  fun _ => Except.ok ["t1", "t2", "t3"]

theorem C8_trends_region_witness :
    ((0 : Int) ≤ 2) ∧ tsWitness (pn_of "ZZ") = Except.ok ["t1", "t2", "t3"] ∧
    (pn_of "IN" = "india" ∧ pn_of "US" = "united_states" ∧
     pn_of "GB" = "united_kingdom" ∧ pn_of "CA" = "canada" ∧
     pn_of "AU" = "australia" ∧
     (∀ c, pn_map.lookup (py_upper c) = none → pn_of c = "india") ∧
     get_google_trends tsWitness 2 "ZZ" = Except.ok
      { source := "google_trends"
        items := (["t1", "t2", "t3"].take (Int.toNat 2)).map fun t =>
          { title := t, link := "", published := "" }
        warning := none }) :=
  ⟨by decide, rfl,
   C8_trends_region tsWitness 2 "ZZ" ["t1", "t2", "t3"] (by decide) rfl⟩

/-- C9: with the image provider key configured, a request with an empty
prompt is rejected with a 400, and the search provider is never consulted:
the outcome is the same for any two search oracles. -/
theorem C9_empty_prompt (key : Option String)
    (search search2 : String → String → Except String HttpResponse)
    (orient : String) (hk : truthy key = true) :
    generate_image key search { prompt := "", orientation := orient } =
      Except.error { status_code := 400, detail := "Prompt is required" } ∧
    generate_image key search { prompt := "", orientation := orient } =
      generate_image key search2 { prompt := "", orientation := orient } := by
  constructor <;> simp [generate_image, hk]

/-- The search oracle used by the C9 witness. -/
def searchWitness : String → String → Except String HttpResponse :=
  fun _ _ => Except.ok { status_code := 200, text := "", photos := [] }

theorem C9_empty_prompt_witness :
    truthy (some "key") = true ∧
    (generate_image (some "key") searchWitness { prompt := "", orientation := "landscape" } =
      Except.error { status_code := 400, detail := "Prompt is required" } ∧
     generate_image (some "key") searchWitness { prompt := "", orientation := "landscape" } =
      generate_image (some "key") (fun _ _ => Except.error "net down")
        { prompt := "", orientation := "landscape" }) :=
  ⟨by decide,
   C9_empty_prompt (some "key") searchWitness (fun _ _ => Except.error "net down")
     "landscape" (by decide)⟩

/-- C10: region selection is case insensitive: a country string and its
upper cased form select the same region; in particular lower case us maps
to united_states, not the fallback. -/
theorem C10_region_case_insensitive (country : String) :
    pn_of (py_upper country) = pn_of country ∧ pn_of "us" = "united_states" := by
  constructor
  · simp only [pn_of, py_upper_idem]
  · decide

/-- C1: on every valid request the names in data and errors together are a
permutation of the names selected by the source, no name is on both sides,
the selection is all five adapters for source all and exactly one adapter
otherwise. -/
theorem C1_partition (env : Env) (p : TrendingRequest)
    (h : py_lower p.source ∈ allowed) :
    ∃ resp, trending env p = Except.ok resp ∧
      (resp.data.map (fun v => v.source) ++
        resp.errors.map (fun er => er.source)).Perm
        (selectedNames (py_lower p.source)) ∧
      (∀ n, n ∈ resp.data.map (fun v => v.source) →
        n ∉ resp.errors.map (fun er => er.source)) ∧
      (py_lower p.source = "all" → selectedNames (py_lower p.source) = adapterOrder) ∧
      (py_lower p.source ≠ "all" → (selectedNames (py_lower p.source)).length = 1) := by
  have hperm : (((includedCalls env p).filterMap okPart).map (fun v => v.source) ++
      ((includedCalls env p).filterMap errPart).map (fun er => er.source)).Perm
      (selectedNames (py_lower p.source)) := by
    have hpp := partition_perm (includedCalls env p) (included_source env p)
    rwa [includedCalls_names] at hpp
  refine ⟨_, trending_eq env p h, hperm, ?_, ?_, ?_⟩
  · intro n hn hn2
    have hnd : (((includedCalls env p).filterMap okPart).map (fun v => v.source) ++
        ((includedCalls env p).filterMap errPart).map (fun er => er.source)).Nodup :=
      hperm.nodup_iff.mpr (selectedNames_nodup _)
    exact List.disjoint_of_nodup_append hnd hn hn2
  · intro hall
    rw [hall]
    decide
  · intro hne
    simp only [allowed, List.mem_cons, List.not_mem_nil, or_false] at h
    rcases h with hs | hs | hs | hs | hs | hs
    · exact absurd hs hne
    · rw [hs]; decide
    · rw [hs]; decide
    · rw [hs]; decide
    · rw [hs]; decide
    · rw [hs]; decide

theorem C1_partition_witness :
    py_lower (TrendingRequest.source { source := "all" }) ∈ allowed ∧
    ∃ resp, trending envMix { source := "all" } = Except.ok resp ∧
      (resp.data.map (fun v => v.source) ++
        resp.errors.map (fun er => er.source)).Perm
        (selectedNames (py_lower (TrendingRequest.source { source := "all" }))) ∧
      (∀ n, n ∈ resp.data.map (fun v => v.source) →
        n ∉ resp.errors.map (fun er => er.source)) ∧
      (py_lower (TrendingRequest.source { source := "all" }) = "all" →
        selectedNames (py_lower (TrendingRequest.source { source := "all" })) = adapterOrder) ∧
      (py_lower (TrendingRequest.source { source := "all" }) ≠ "all" →
        (selectedNames (py_lower (TrendingRequest.source { source := "all" }))).length = 1) :=
  ⟨by decide, C1_partition envMix { source := "all" } (by decide)⟩

/-- C5: the data and errors name sequences respect the fixed invocation
order: each is a sublist of the selected names in order, themselves a
sublist of the constant adapter order list. -/
theorem C5_fixed_order (env : Env) (p : TrendingRequest)
    (h : py_lower p.source ∈ allowed) :
    ∃ resp, trending env p = Except.ok resp ∧
      (resp.data.map (fun v => v.source)).Sublist
        (selectedNames (py_lower p.source)) ∧
      (resp.errors.map (fun er => er.source)).Sublist
        (selectedNames (py_lower p.source)) ∧
      (selectedNames (py_lower p.source)).Sublist adapterOrder := by
  refine ⟨_, trending_eq env p h, ?_, ?_, selectedNames_sublist _⟩
  · have hs := okNames_sublist (includedCalls env p) (included_source env p)
    rwa [includedCalls_names] at hs
  · have hs := errNames_sublist (includedCalls env p)
    rwa [includedCalls_names] at hs

theorem C5_fixed_order_witness :
    py_lower (TrendingRequest.source { source := "all" }) ∈ allowed ∧
    ∃ resp, trending envMix { source := "all" } = Except.ok resp ∧
      (resp.data.map (fun v => v.source)).Sublist
        (selectedNames (py_lower (TrendingRequest.source { source := "all" }))) ∧
      (resp.errors.map (fun er => er.source)).Sublist
        (selectedNames (py_lower (TrendingRequest.source { source := "all" }))) ∧
      (selectedNames (py_lower (TrendingRequest.source { source := "all" }))).Sublist
        adapterOrder :=
  ⟨by decide, C5_fixed_order envMix { source := "all" } (by decide)⟩

/-- C2: each included adapter contributes exactly its own outcome,
independently of every sibling: when its call raised, the only entry
carrying its name is a single error record with the stringified failure
and nothing in data; when it returned, the only entry carrying its name
is its result in data and nothing in errors. -/
theorem C2_fault_isolation (env : Env) (p : TrendingRequest)
    (h : py_lower p.source ∈ allowed) :
    ∃ resp, trending env p = Except.ok resp ∧
      ∀ c ∈ includedCalls env p,
        (∀ e, c.2 = Except.error e →
          resp.data.filter (fun v => v.source == c.1) = [] ∧
          resp.errors.filter (fun er => er.source == c.1) =
            [{ source := c.1, error := e }] ∧
          resp.errors.count { source := c.1, error := e } = 1) ∧
        (∀ v, c.2 = Except.ok v →
          resp.data.filter (fun w => w.source == c.1) = [v] ∧
          resp.errors.filter (fun er => er.source == c.1) = []) := by
  have hnodup : ((includedCalls env p).map Prod.fst).Nodup := by
    rw [includedCalls_names]
    exact selectedNames_nodup _
  refine ⟨_, trending_eq env p h, ?_⟩
  intro c hc
  have hcontrib := contrib_eq (includedCalls env p) hnodup (included_source env p) c hc
  obtain ⟨n, r⟩ := c
  constructor
  · rintro e rfl
    have h1 := hcontrib.1
    have h2 := hcontrib.2
    simp only [okPart, errPart, Option.toList_none, Option.toList_some] at h1 h2
    refine ⟨h1, h2, ?_⟩
    have hcnt : List.count { source := n, error := e }
        (((includedCalls env p).filterMap errPart).filter
          (fun er => er.source == n)) =
        List.count { source := n, error := e }
          ((includedCalls env p).filterMap errPart) :=
      List.count_filter (by simp)
    rw [← hcnt, h2]
    exact List.count_singleton_self _
  · rintro v rfl
    have h1 := hcontrib.1
    have h2 := hcontrib.2
    simp only [okPart, errPart, Option.toList_none, Option.toList_some] at h1 h2
    exact ⟨h1, h2⟩

theorem C2_fault_isolation_witness :
    py_lower (TrendingRequest.source { source := "all" }) ∈ allowed ∧
    ∃ resp, trending envMix { source := "all" } = Except.ok resp ∧
      ∀ c ∈ includedCalls envMix { source := "all" },
        (∀ e, c.2 = Except.error e →
          resp.data.filter (fun v => v.source == c.1) = [] ∧
          resp.errors.filter (fun er => er.source == c.1) =
            [{ source := c.1, error := e }] ∧
          resp.errors.count { source := c.1, error := e } = 1) ∧
        (∀ v, c.2 = Except.ok v →
          resp.data.filter (fun w => w.source == c.1) = [v] ∧
          resp.errors.filter (fun er => er.source == c.1) = []) :=
  ⟨by decide, C2_fault_isolation envMix { source := "all" } (by decide)⟩

end YoutubeSEOBot
